import Mathlib

/-!
Verification development for the Proxy-me gateway (Go sources).

The Go source is shallowly embedded: pure helpers from the repository
become Lean functions over `String`, `List` and `Int`; Go maps become
association lists; Go `time.Time`/`time.Duration` values become `Int`
nanosecond counts; fallible operations return `Option`/`Except`.
Functions whose names match the Go source (`AllowedAuthIDsForClientKey`,
`shouldBanReverseProxyOnError`, `codexQuotaRecoverAt`, ...) are direct
translations of the corresponding Go functions.
-/

namespace ProxyMe

/-! ## Go string primitives

List-based models of the `strings` standard-library functions used by the
repository. `String` in Lean is a packed list of characters, so these are
faithful executable models for the character data.
-/

/-- Characters treated as white space by Go `unicode.IsSpace` in the Latin-1
range (space, tab, newline, vertical tab, form feed, carriage return,
next line, no-break space). -/
def isGoSpace (c : Char) : Bool :=
  c.val = 32 || c.val = 9 || c.val = 10 || c.val = 11 ||
  c.val = 12 || c.val = 13 || c.val = 133 || c.val = 160

/-- Model of Go `strings.TrimSpace`. -/
def trimSpace (s : String) : String :=
  String.mk (((s.toList.dropWhile isGoSpace).reverse.dropWhile isGoSpace).reverse)

/-- Model of Go `strings.ToLower` (ASCII case folding; the repository only
lowers ASCII and CJK text, and CJK characters are fixed points). -/
def goToLower (s : String) : String :=
  String.mk (s.toList.map Char.toLower)

/-- Whether the character list `hay` starts with the list `pat`. -/
def charsStartWith : List Char → List Char → Bool
  | _, [] => true
  | [], _ :: _ => false
  | c :: cs, p :: ps => c = p && charsStartWith cs ps

/-- Whether the character list `hay` contains `pat` as a contiguous run
(model of Go `strings.Contains` on the character data). -/
def charsContain (pat : List Char) : List Char → Bool
  | [] => charsStartWith [] pat
  | c :: rest => charsStartWith (c :: rest) pat || charsContain pat rest

/-- Model of Go `strings.Contains`. -/
def goContains (s sub : String) : Bool :=
  charsContain sub.toList s.toList

/-- Model of Go `strings.HasSuffix`. -/
def goEndsWith (s suf : String) : Bool :=
  charsStartWith s.toList.reverse suf.toList.reverse

/-- Model of Go `strings.HasPrefix`. -/
def goStartsWith (s p : String) : Bool :=
  charsStartWith s.toList p.toList

/-- Model of Go `strings.TrimSuffix`. -/
def goTrimSuffix (s suf : String) : String :=
  if goEndsWith s suf then String.mk (s.toList.take (s.toList.length - suf.toList.length))
  else s

/-- Model of Go `strings.Trim(s, "/")` as used by the worker-URL builder. -/
def trimSlashes (s : String) : String :=
  String.mk (((s.toList.dropWhile (· = '/')).reverse.dropWhile (· = '/')).reverse)

/-- Model of Go `strings.EqualFold`, restricted to ASCII folding. -/
def goEqualFold (a b : String) : Bool :=
  goToLower a = goToLower b

/-- Splits a character list at the first occurrence of `pat`, removing it;
`none` when `pat` does not occur. -/
def charsSplitOnSub (pat : List Char) : List Char → Option (List Char × List Char)
  | [] => if charsStartWith [] pat then some ([], []) else none
  | c :: rest =>
    if charsStartWith (c :: rest) pat then some ([], (c :: rest).drop pat.length)
    else
      match charsSplitOnSub pat rest with
      | some (a, b) => some (c :: a, b)
      | none => none

/-- Digit-string to `Nat`; `none` on the empty string or a non-digit. -/
def digitsToNat (cs : List Char) : Option Nat :=
  match cs with
  | [] => none
  | _ =>
    cs.foldl
      (fun acc c =>
        match acc with
        | none => none
        | some n => if c.isDigit then some (n * 10 + (c.toNat - 48)) else none)
      (some 0)

/-- Model of Go `strconv.Atoi`: an optional sign followed by at least one
digit, nothing else (overflow is not modelled). -/
def goAtoi (s : String) : Option Int :=
  match s.toList with
  | '+' :: ds => (digitsToNat ds).map Int.ofNat
  | '-' :: ds => (digitsToNat ds).map (fun n => -(n : Int))
  | ds => (digitsToNat ds).map Int.ofNat

/-! ## Go map primitives

Association-list models of the Go `map[string]V` operations the
repository uses: lookup, insert-or-replace, and delete.
-/

/-- Lookup in a Go map modelled as an association list. -/
def goMapLookup {α : Type} (m : List (String × α)) (k : String) : Option α :=
  match m with
  | [] => none
  | (k0, v) :: rest => if k0 = k then some v else goMapLookup rest k

/-- Insert-or-replace in a Go map modelled as an association list. -/
def goMapInsert {α : Type} (m : List (String × α)) (k : String) (v : α) :
    List (String × α) :=
  match m with
  | [] => [(k, v)]
  | (k0, v0) :: rest =>
    if k0 = k then (k0, v) :: rest else (k0, v0) :: goMapInsert rest k v

/-- Key deletion in a Go map modelled as an association list. -/
def goMapDelete {α : Type} (m : List (String × α)) (k : String) :
    List (String × α) :=
  match m with
  | [] => []
  | (k0, v0) :: rest =>
    if k0 = k then goMapDelete rest k else (k0, v0) :: goMapDelete rest k

theorem goMapLookup_goMapInsert_self {α : Type} (m : List (String × α)) (k : String) (v : α) :
    goMapLookup (goMapInsert m k v) k = some v := by
  induction m with
  | nil => simp [goMapInsert, goMapLookup]
  | cons hd tl ih =>
    obtain ⟨k0, v0⟩ := hd
    by_cases h : k0 = k
    · simp [goMapInsert, goMapLookup, h]
    · simp [goMapInsert, goMapLookup, h, ih]

theorem goMapLookup_goMapDelete_self {α : Type} (m : List (String × α)) (k : String) :
    goMapLookup (goMapDelete m k) k = none := by
  induction m with
  | nil => simp [goMapDelete, goMapLookup]
  | cons hd tl ih =>
    obtain ⟨k0, v0⟩ := hd
    by_cases h : k0 = k
    · simp [goMapDelete, h, ih]
    · simp [goMapDelete, goMapLookup, h, ih]

/-! ## Data model

Embeddings of the configuration and credential records used by the
claims, from `internal/config` and `sdk/cliproxy/auth`.
-/

/-- One reverse-proxy configuration entry (`config.ReverseProxy`). -/
structure ReverseProxy where
  id : String
  name : String
  baseURL : String
  enabled : Bool
  headers : List (String × String) := []
deriving Repr, DecidableEq

/-- Provider-level routing table (`config.ProxyRouting`). -/
structure ProxyRouting where
  codex : String := ""
  antigravity : String := ""
  claude : String := ""
  gemini : String := ""
  geminiCLI : String := ""
  vertex : String := ""
  aiStudio : String := ""
  qwen : String := ""
  iflow : String := ""
deriving Repr, DecidableEq

/-- The slice of `config.Config` consulted by the embedded functions:
the api-key-auth mapping, the reverse-proxy list, the worker URL and the
two routing maps. -/
structure Config where
  apiKeyAuth : List (String × List String) := []
  proxyRouting : ProxyRouting := {}
  proxyRoutingAuth : List (String × String) := []
  reverseProxies : List ReverseProxy := []
  reverseProxyWorkerURL : String := ""
deriving Repr, DecidableEq

/-- One credential record (`cliproxyauth.Auth`), restricted to the fields
the embedded functions read. -/
structure Auth where
  id : String
  index : String := ""
  fileName : String := ""
  attributes : List (String × String) := []
deriving Repr, DecidableEq

/-- The credential manager state read by `AllowedAuthIDsForClientKey`:
the runtime configuration snapshot (`nil` modelled as `none`) and the
credential pool. -/
structure Manager where
  runtimeConfig : Option Config
  auths : List Auth
deriving Repr

/-! ## Access resolver (`sdk/cliproxy/auth/api_key_permissions.go`)

`stableAuthIndex` is defined in a repository file outside the provided
sources; the spec only requires it to be a deterministic hash of the seed
string, so the functions below are parameterised by it
(`hash : String → String`) and every theorem holds for all such hashes.
-/

/-- Translation of `authIndexForMatch`: prefer the explicit index, else
hash a seed derived from the file name, the api_key attribute, or the ID. -/
def authIndexForMatch (hash : String → String) (a : Auth) : String :=
  let idx := trimSpace a.index
  if idx ≠ "" then idx
  else
    let fn := trimSpace a.fileName
    let seed :=
      if fn ≠ "" then "file:" ++ fn
      else
        let apiKey := trimSpace ((goMapLookup a.attributes "api_key").getD "")
        if apiKey ≠ "" then "api_key:" ++ apiKey else ""
    let seed :=
      if seed = "" then
        let i := trimSpace a.id
        if i ≠ "" then "id:" ++ i else ""
      else seed
    if seed = "" then "" else hash seed

/-- Translation of `authMatchesAllowedRefs`: a credential matches when its
trimmed ID, derived index or trimmed file name is one of the allowed
references. -/
def authMatchesAllowedRefs (hash : String → String) (a : Auth) (allowed : List String) : Bool :=
  if allowed.isEmpty then false
  else
    (let i := trimSpace a.id
     i ≠ "" && allowed.contains i) ||
    (let idx := authIndexForMatch hash a
     idx ≠ "" && allowed.contains idx) ||
    (let n := trimSpace a.fileName
     n ≠ "" && allowed.contains n)

/-- The reference-normalisation loop of `allowedAuthRefsForClientKey`:
trim every reference and drop the blank ones. -/
def normalizeRefs (refs : List String) : List String :=
  refs.filterMap (fun r =>
    let r' := trimSpace r
    if r' = "" then none else some r')

/-- Translation of `Manager.allowedAuthRefsForClientKey`. The Go function
returns `(map, ok)`; a `nil` map with `ok = false` is modelled as `none`
and a present reference set as `some refs` (an element list whose
membership models set membership). -/
def allowedAuthRefsForClientKey (m : Manager) (clientKey : String) : Option (List String) :=
  let ck := trimSpace clientKey
  if ck = "" then none
  else
    match m.runtimeConfig with
    | none => none
    | some cfg =>
      if cfg.apiKeyAuth.isEmpty then none
      else
        match goMapLookup cfg.apiKeyAuth ck with
        | none => none
        | some refs => some (normalizeRefs refs)

/-- Translation of `Manager.AllowedAuthIDsForClientKey`. The Go result
`(allowed map, restricted bool)` is modelled as
`(Option (List String)) × Bool` with `none` for the `nil` map. -/
def AllowedAuthIDsForClientKey (hash : String → String) (m : Manager) (clientKey : String) :
    Option (List String) × Bool :=
  match allowedAuthRefsForClientKey m clientKey with
  | none => (none, false)
  | some allowedRefs =>
    if allowedRefs.isEmpty then (some [], true)
    else
      (some ((m.auths.filter (fun a => authMatchesAllowedRefs hash a allowedRefs)).map (·.id)),
       true)

/-- The matching condition of `authMatchesAllowedRefs` stated as the spec
words it: the credential's (trimmed) ID, derived index, or (trimmed) file
name equals some allowed reference. -/
def matchesRefSpec (hash : String → String) (a : Auth) (refs : List String) : Prop :=
  (trimSpace a.id ≠ "" ∧ trimSpace a.id ∈ refs) ∨
  (authIndexForMatch hash a ≠ "" ∧ authIndexForMatch hash a ∈ refs) ∨
  (trimSpace a.fileName ≠ "" ∧ trimSpace a.fileName ∈ refs)

theorem goMapLookup_ne_nil {α : Type} {m : List (String × α)} {k : String} {v : α}
    (h : goMapLookup m k = some v) : m.isEmpty = false := by
  cases m with
  | nil => simp [goMapLookup] at h
  | cons hd tl => rfl

theorem mem_normalizeRefs {r : String} {refs : List String} :
    r ∈ normalizeRefs refs ↔ r ≠ "" ∧ ∃ r0 ∈ refs, trimSpace r0 = r := by
  simp only [normalizeRefs, List.mem_filterMap]
  constructor
  · rintro ⟨r0, hr0, h⟩
    by_cases hb : trimSpace r0 = ""
    · simp [hb] at h
    · simp only [if_neg hb, Option.some.injEq] at h
      exact ⟨h ▸ hb, r0, hr0, h⟩
  · rintro ⟨hne, r0, hr0, h⟩
    exact ⟨r0, hr0, by simp [h, hne]⟩

theorem authMatchesAllowedRefs_iff {hash : String → String} {a : Auth} {refs : List String}
    (h : refs ≠ []) :
    authMatchesAllowedRefs hash a refs = true ↔ matchesRefSpec hash a refs := by
  have hne : refs.isEmpty = false := by
    cases refs with
    | nil => exact absurd rfl h
    | cons x xs => rfl
  simp only [authMatchesAllowedRefs, matchesRefSpec, hne, Bool.if_false_left,
    Bool.and_eq_true, Bool.not_eq_true', Bool.or_eq_true, decide_eq_true_eq,
    List.elem_iff, Bool.decide_and, Bool.decide_or, ne_eq]
  tauto

/-- C1: `AllowedAuthIDsForClientKey` is tri-state. An empty or unmapped
client key yields `(nil, restricted=false)`; a key mapped to a list with
no non-blank reference yields `(empty set, restricted=true)`; a key
mapped to non-blank references yields exactly the IDs of credentials
whose trimmed ID, derived index or trimmed file name equals some trimmed
non-blank reference, with `restricted=true`. Present-but-empty is never
collapsed into absent. -/
theorem allowedAuthIDsForClientKey_tri_state (hash : String → String) (m : Manager)
    (clientKey : String) :
    (trimSpace clientKey = "" → AllowedAuthIDsForClientKey hash m clientKey = (none, false)) ∧
    (m.runtimeConfig = none → AllowedAuthIDsForClientKey hash m clientKey = (none, false)) ∧
    (∀ cfg, m.runtimeConfig = some cfg →
      goMapLookup cfg.apiKeyAuth (trimSpace clientKey) = none →
      AllowedAuthIDsForClientKey hash m clientKey = (none, false)) ∧
    (∀ cfg refs, m.runtimeConfig = some cfg → trimSpace clientKey ≠ "" →
      goMapLookup cfg.apiKeyAuth (trimSpace clientKey) = some refs →
      (normalizeRefs refs = [] →
        AllowedAuthIDsForClientKey hash m clientKey = (some [], true)) ∧
      (normalizeRefs refs ≠ [] →
        ∃ ids, AllowedAuthIDsForClientKey hash m clientKey = (some ids, true) ∧
          ∀ x, x ∈ ids ↔ ∃ a ∈ m.auths, a.id = x ∧ matchesRefSpec hash a (normalizeRefs refs))) := by
  refine ⟨?_, ?_, ?_, ?_⟩
  · intro hck
    simp [AllowedAuthIDsForClientKey, allowedAuthRefsForClientKey, hck]
  · intro hcfg
    by_cases hck : trimSpace clientKey = "" <;>
      simp [AllowedAuthIDsForClientKey, allowedAuthRefsForClientKey, hck, hcfg]
  · intro cfg hcfg hlk
    by_cases hck : trimSpace clientKey = ""
    · simp [AllowedAuthIDsForClientKey, allowedAuthRefsForClientKey, hck]
    · simp [AllowedAuthIDsForClientKey, allowedAuthRefsForClientKey, hck, hcfg, hlk]
  · intro cfg refs hcfg hck hlk
    have hne : cfg.apiKeyAuth.isEmpty = false := goMapLookup_ne_nil hlk
    constructor
    · intro hz
      simp [AllowedAuthIDsForClientKey, allowedAuthRefsForClientKey, hck, hcfg, hne, hlk, hz]
    · intro hnz
      refine ⟨(m.auths.filter
          (fun a => authMatchesAllowedRefs hash a (normalizeRefs refs))).map (·.id), ?_, ?_⟩
      · have hnz' : (normalizeRefs refs).isEmpty = false := by
          cases h : normalizeRefs refs with
          | nil => exact absurd h hnz
          | cons x xs => rfl
        simp [AllowedAuthIDsForClientKey, allowedAuthRefsForClientKey, hck, hcfg, hne, hlk, hnz']
      · intro x
        simp only [List.mem_map, List.mem_filter]
        constructor
        · rintro ⟨a, ⟨ha, hmatch⟩, hid⟩
          exact ⟨a, ha, hid, (authMatchesAllowedRefs_iff hnz).mp hmatch⟩
        · rintro ⟨a, ha, hid, hmatch⟩
          exact ⟨a, ⟨ha, (authMatchesAllowedRefs_iff hnz).mpr hmatch⟩, hid⟩

/-- Concrete instantiation of the C1 theorem: a key mapped to one
reference selects exactly the credential whose ID matches it. -/
theorem allowedAuthIDsForClientKey_tri_state_witness :
    (({ apiKeyAuth := [("client-1", ["auth-allowed"])] } : Config) =
      { apiKeyAuth := [("client-1", ["auth-allowed"])] }) ∧
    ∃ ids,
      AllowedAuthIDsForClientKey (fun s => s)
        { runtimeConfig := some { apiKeyAuth := [("client-1", ["auth-allowed"])] },
          auths := [{ id := "auth-allowed" }, { id := "auth-denied" }] }
        "client-1" = (some ids, true) ∧
      ∀ x, x ∈ ids ↔ ∃ a ∈ [({ id := "auth-allowed" } : Auth), { id := "auth-denied" }],
        a.id = x ∧ matchesRefSpec (fun s => s) a (normalizeRefs ["auth-allowed"]) :=
  ⟨rfl,
    ((allowedAuthIDsForClientKey_tri_state (fun s => s)
        { runtimeConfig := some { apiKeyAuth := [("client-1", ["auth-allowed"])] },
          auths := [{ id := "auth-allowed" }, { id := "auth-denied" }] }
        "client-1").2.2.2
      { apiKeyAuth := [("client-1", ["auth-allowed"])] } ["auth-allowed"]
      rfl (by decide) (by decide)).2 (by decide)⟩

/-- C9: a client key whose mapped reference list contains only blank
entries is deny-all: the references are trimmed and blanks dropped before
the emptiness test, but the presence flag stays true, so the key yields
`(empty set, restricted=true)` and never falls back to unrestricted. -/
theorem allowedAuthIDsForClientKey_blank_refs_deny_all (hash : String → String)
    (m : Manager) (clientKey : String) (cfg : Config) (refs : List String)
    (hcfg : m.runtimeConfig = some cfg) (hck : trimSpace clientKey ≠ "")
    (hlk : goMapLookup cfg.apiKeyAuth (trimSpace clientKey) = some refs)
    (hblank : ∀ r ∈ refs, trimSpace r = "") :
    AllowedAuthIDsForClientKey hash m clientKey = (some [], true) := by
  have hne : cfg.apiKeyAuth.isEmpty = false := goMapLookup_ne_nil hlk
  have hz : normalizeRefs refs = [] := by
    simp only [normalizeRefs, List.filterMap_eq_nil_iff]
    intro r hr
    simp [hblank r hr]
  simp [AllowedAuthIDsForClientKey, allowedAuthRefsForClientKey, hck, hcfg, hne, hlk, hz]

/-- Concrete instantiation of the C9 theorem: references `["  ", ""]`
behave as deny-all even with live credentials present. -/
theorem allowedAuthIDsForClientKey_blank_refs_deny_all_witness :
    AllowedAuthIDsForClientKey (fun s => s)
      { runtimeConfig := some { apiKeyAuth := [("client-1", ["  ", ""])] },
        auths := [{ id := "auth-a" }] } "client-1" = (some [], true) :=
  allowedAuthIDsForClientKey_blank_refs_deny_all (fun s => s) _ "client-1"
    { apiKeyAuth := [("client-1", ["  ", ""])] } ["  ", ""]
    rfl (by decide) (by decide) (by decide)

/-! ## Reverse-proxy circuit-breaker ban state

Translation of the ban-state code of the executor package. The global
`reverseProxyBanState.bannedTill` map is made an explicit parameter, and
`time.Now()` an explicit `now : Int` (nanoseconds); each function returns
the updated map where the Go code mutates it.
-/

/-- The 5-minute ban TTL (`reverseProxyBanTTL`), in nanoseconds. -/
def reverseProxyBanTTL : Int := 5 * 60 * 1000000000

/-- Translation of `banReverseProxyTemporarily`: record `now + TTL` as the
ban expiry, but keep a later already-stored expiry. The `provider`,
`statusCode` and `errMsg` arguments of the Go function only feed a log
line and are omitted. -/
def banReverseProxyTemporarily (bans : List (String × Int)) (proxyID : String) (now : Int) :
    List (String × Int) :=
  let id := trimSpace proxyID
  if id = "" then bans
  else
    let untilNew := now + reverseProxyBanTTL
    let untilKept :=
      match goMapLookup bans id with
      | some current => if current > untilNew then current else untilNew
      | none => untilNew
    goMapInsert bans id untilKept

/-- Translation of `isReverseProxyTemporarilyBanned`: report whether the
proxy is banned at `now`, deleting the entry when it has expired. Returns
the flag together with the updated map. -/
def isReverseProxyTemporarilyBanned (bans : List (String × Int)) (proxyID : String)
    (now : Int) : Bool × List (String × Int) :=
  let id := trimSpace proxyID
  if id = "" then (false, bans)
  else
    match goMapLookup bans id with
    | none => (false, bans)
    | some untilT => if now > untilT then (false, goMapDelete bans id) else (true, bans)

/-- C5: banning never shortens an active ban. After
`banReverseProxyTemporarily` the stored expiry is the maximum of the
previously stored expiry (when present) and `now + 5min`; in particular
it is at least any previously stored expiry, so consecutive ban calls are
monotonically non-decreasing. -/
theorem banReverseProxyTemporarily_keeps_max (bans : List (String × Int)) (proxyID : String)
    (now : Int) (hid : trimSpace proxyID ≠ "") :
    goMapLookup (banReverseProxyTemporarily bans proxyID now) (trimSpace proxyID)
      = some (max ((goMapLookup bans (trimSpace proxyID)).getD (now + reverseProxyBanTTL))
          (now + reverseProxyBanTTL)) ∧
    ∀ c, goMapLookup bans (trimSpace proxyID) = some c →
      goMapLookup (banReverseProxyTemporarily bans proxyID now) (trimSpace proxyID)
        = some (max c (now + reverseProxyBanTTL)) ∧ c ≤ max c (now + reverseProxyBanTTL) := by
  constructor
  · simp only [banReverseProxyTemporarily, if_neg hid]
    cases h : goMapLookup bans (trimSpace proxyID) with
    | none => simp [h, goMapLookup_goMapInsert_self]
    | some current =>
      rw [goMapLookup_goMapInsert_self]
      by_cases hgt : current > now + reverseProxyBanTTL
      · simp [hgt, max_eq_left (le_of_lt hgt)]
      · simp [hgt, max_eq_right (not_lt.mp hgt)]
  · intro c hc
    constructor
    · simp only [banReverseProxyTemporarily, if_neg hid, hc]
      rw [goMapLookup_goMapInsert_self]
      by_cases hgt : c > now + reverseProxyBanTTL
      · simp [hgt, max_eq_left (le_of_lt hgt)]
      · simp [hgt, max_eq_right (not_lt.mp hgt)]
    · exact le_max_left _ _

/-- Concrete instantiation of the C5 theorem: re-banning a proxy that is
already banned further in the future keeps the later expiry. -/
theorem banReverseProxyTemporarily_keeps_max_witness :
    goMapLookup (banReverseProxyTemporarily [("deno-1", 1000000000000000)] "deno-1" 0) "deno-1"
      = some (max 1000000000000000 (0 + reverseProxyBanTTL)) ∧
    1000000000000000 ≤ max 1000000000000000 (0 + reverseProxyBanTTL) :=
  ⟨((banReverseProxyTemporarily_keeps_max [("deno-1", 1000000000000000)] "deno-1" 0
      (by decide)).2 1000000000000000 (by decide)).1,
   ((banReverseProxyTemporarily_keeps_max [("deno-1", 1000000000000000)] "deno-1" 0
      (by decide)).2 1000000000000000 (by decide)).2⟩

/-- C6 counterexample: the claim says the ban state transitions to
unbanned once `now ≥ bannedUntil`, but at `now = bannedUntil` exactly the
code tests `now.After(until)`, which is false, and still reports the
proxy as banned. -/
theorem isReverseProxyTemporarilyBanned_at_expiry_counterexample :
    (isReverseProxyTemporarilyBanned [("deno-1", 1000)] "deno-1" 1000).1 = true := by
  decide

/-- C6 (amended): the per-proxy ban state has exactly the two lazily
checked states. A read with `now ≤ bannedUntil` (so in particular any
read strictly before expiry) reports banned and leaves the map unchanged;
the transition to unbanned happens once `now` is strictly past
`bannedUntil`, and the first such read removes the entry; an absent entry
reads as unbanned. A proxy banned at `t0` for the 5-minute TTL is
reported banned at `t0+1s` and unbanned at `t0+5m1s`, with the entry
removed by that read. -/
theorem isReverseProxyTemporarilyBanned_state_machine (bans : List (String × Int))
    (proxyID : String) (now : Int) (hid : trimSpace proxyID ≠ "") :
    (∀ untilT, goMapLookup bans (trimSpace proxyID) = some untilT →
      (now ≤ untilT → isReverseProxyTemporarilyBanned bans proxyID now = (true, bans)) ∧
      (untilT < now →
        isReverseProxyTemporarilyBanned bans proxyID now
          = (false, goMapDelete bans (trimSpace proxyID)) ∧
        goMapLookup (goMapDelete bans (trimSpace proxyID)) (trimSpace proxyID) = none)) ∧
    (goMapLookup bans (trimSpace proxyID) = none →
      isReverseProxyTemporarilyBanned bans proxyID now = (false, bans)) ∧
    (∀ t0,
      (isReverseProxyTemporarilyBanned (banReverseProxyTemporarily [] proxyID t0) proxyID
        (t0 + 1000000000)).1 = true ∧
      (isReverseProxyTemporarilyBanned (banReverseProxyTemporarily [] proxyID t0) proxyID
        (t0 + 301 * 1000000000)).1 = false ∧
      goMapLookup
        (isReverseProxyTemporarilyBanned (banReverseProxyTemporarily [] proxyID t0) proxyID
          (t0 + 301 * 1000000000)).2 (trimSpace proxyID) = none) := by
  refine ⟨?_, ?_, ?_⟩
  · intro untilT hlk
    constructor
    · intro hle
      simp [isReverseProxyTemporarilyBanned, hid, hlk, not_lt.mpr hle]
    · intro hlt
      refine ⟨?_, goMapLookup_goMapDelete_self bans (trimSpace proxyID)⟩
      simp [isReverseProxyTemporarilyBanned, hid, hlk, hlt]
  · intro hlk
    simp [isReverseProxyTemporarilyBanned, hid, hlk]
  · intro t0
    have hstore : goMapLookup (banReverseProxyTemporarily [] proxyID t0) (trimSpace proxyID)
        = some (t0 + reverseProxyBanTTL) := by
      simp [banReverseProxyTemporarily, hid, goMapLookup, goMapInsert]
    have hTTL : reverseProxyBanTTL = 300 * 1000000000 := by decide
    refine ⟨?_, ?_, ?_⟩
    · simp [isReverseProxyTemporarilyBanned, hid, hstore, hTTL]
    · simp [isReverseProxyTemporarilyBanned, hid, hstore, hTTL]
    · simp [isReverseProxyTemporarilyBanned, hid, hstore, hTTL,
        goMapLookup_goMapDelete_self]

/-- Concrete instantiation of the C6 theorem at `t0 = 0` with proxy
`deno-1`. -/
theorem isReverseProxyTemporarilyBanned_state_machine_witness :
    (isReverseProxyTemporarilyBanned (banReverseProxyTemporarily [] "deno-1" 0) "deno-1"
      (0 + 1000000000)).1 = true ∧
    (isReverseProxyTemporarilyBanned (banReverseProxyTemporarily [] "deno-1" 0) "deno-1"
      (0 + 301 * 1000000000)).1 = false :=
  ⟨((isReverseProxyTemporarilyBanned_state_machine [] "deno-1" 0 (by decide)).2.2 0).1,
   ((isReverseProxyTemporarilyBanned_state_machine [] "deno-1" 0 (by decide)).2.2 0).2.1⟩

/-! ## URL model and reverse-proxy routing

A simplified model of `net/url` sufficient for the absolute http/https
URLs the router handles: `scheme://host[:port]/path?query`. A string
without a `scheme://host` part is rejected, matching the code paths that
treat a parse error or an empty `Host` as invalid.
-/

/-- Parsed absolute URL (`url.URL` restricted to the fields read by the
router). -/
structure GoURL where
  scheme : String
  host : String
  path : String
  rawQuery : String
deriving Repr, DecidableEq

/-- Model of `url.Parse` for absolute URLs: splits at the first `://`,
takes the host up to the first `/` or `?`, then splits path and query at
the first `?`. Returns `none` when the scheme separator or the host is
missing. -/
def urlParse (s : String) : Option GoURL :=
  match charsSplitOnSub ("://".toList) s.toList with
  | none => none
  | some (schemeCs, rest) =>
    let hostCs := rest.takeWhile (fun c => c ≠ '/' && c ≠ '?')
    let tailCs := rest.drop hostCs.length
    if hostCs.isEmpty then none
    else
      let (pathCs, queryCs) :=
        match charsSplitOnSub ['?'] tailCs with
        | some (p, q) => (p, q)
        | none => (tailCs, [])
      some { scheme := String.mk schemeCs, host := String.mk hostCs,
             path := String.mk pathCs, rawQuery := String.mk queryCs }

/-- Model of `url.URL.Hostname`: the host with any `:port` stripped
(IPv6 bracket syntax is not modelled). -/
def GoURL.hostname (u : GoURL) : String :=
  String.mk (u.host.toList.takeWhile (· ≠ ':'))

/-- Translation of `findReverseProxyByID`: the first enabled reverse
proxy with the given ID. -/
def findReverseProxyByID (cfg : Option Config) (proxyID : String) : Option ReverseProxy :=
  match cfg with
  | none => none
  | some c =>
    if proxyID = "" || c.reverseProxies.isEmpty then none
    else c.reverseProxies.find? (fun p => p.id = proxyID && p.enabled)

/-- Translation of `buildReverseProxyWorkerURL`: wrap a proxied call
through the configured worker bridge, or return `""` when no bridge
applies (unset or invalid worker URL, invalid proxy base URL, or a worker
host equal to the proxy's host — the recursion guard). -/
def buildReverseProxyWorkerURL (cfg : Option Config) (proxyBaseURL pfx path rawQuery : String) :
    String :=
  match cfg with
  | none => ""
  | some c =>
    let workerBase := trimSpace c.reverseProxyWorkerURL
    if workerBase = "" then ""
    else
      match urlParse workerBase with
      | none => ""
      | some workerParsed =>
        match urlParse (trimSpace proxyBaseURL) with
        | none => ""
        | some upstreamParsed =>
          let upstreamHost := trimSpace upstreamParsed.hostname
          if upstreamHost = "" then ""
          else if goEqualFold (trimSpace workerParsed.hostname) upstreamHost then ""
          else
            let normalizedPfx := "/" ++ trimSlashes (trimSpace pfx)
            let normalizedPath0 := if path = "" then "/" else path
            let normalizedPath :=
              if goStartsWith normalizedPath0 "/" then normalizedPath0
              else "/" ++ normalizedPath0
            let basePath := goTrimSuffix (normalizedPfx ++ normalizedPath) "/"
            let workerTarget := goTrimSuffix workerBase "/" ++ basePath ++ "/" ++ upstreamHost
            if rawQuery ≠ "" then workerTarget ++ "?" ++ rawQuery else workerTarget

/-- The provider- and host-dependent path segment computed inside
`resolveReverseProxyURLWithID`. -/
def reverseProxyPathSegment (provider : String) (host : String) : String :=
  if provider = "antigravity" then
    if host = "daily-cloudcode-pa.sandbox.googleapis.com" then "/antigravity-sandbox"
    else if host = "daily-cloudcode-pa.googleapis.com" then "/antigravity-daily"
    else if host = "cloudcode-pa.googleapis.com" then "/antigravity-cloudcode"
    else "/antigravity-sandbox"
  else if provider = "codex" then "/codex"
  else "/" ++ provider

/-- Translation of `resolveReverseProxyURLWithID`: rewrite the original
URL through the configured reverse proxy (via the worker bridge when one
applies), or return it unchanged when no proxy configuration resolves. -/
def resolveReverseProxyURLWithID (cfg : Option Config) (proxyID provider originalURL : String) :
    String :=
  match cfg with
  | none => originalURL
  | some c =>
    if c.reverseProxies.isEmpty || proxyID = "" then originalURL
    else
      match findReverseProxyByID (some c) proxyID with
      | none => originalURL
      | some proxyConfig =>
        match urlParse originalURL with
        | none => originalURL
        | some parsedURL =>
          let proxyBase := goTrimSuffix proxyConfig.baseURL "/"
          let pfx := reverseProxyPathSegment provider parsedURL.host
          let newPath :=
            if goStartsWith parsedURL.path "/" then parsedURL.path else "/" ++ parsedURL.path
          let workerURL :=
            buildReverseProxyWorkerURL (some c) proxyConfig.baseURL pfx newPath parsedURL.rawQuery
          if workerURL ≠ "" then workerURL
          else
            let newURL := proxyBase ++ pfx ++ newPath
            if parsedURL.rawQuery ≠ "" then newURL ++ "?" ++ parsedURL.rawQuery else newURL

/-- Result of route resolution (`reverseProxyResolution`). -/
structure ReverseProxyResolution where
  url : String
  proxyID : String
  proxied : Bool
deriving Repr, DecidableEq

/-- Translation of `resolveProxyIDForProvider`: the provider-level
routing entry. -/
def resolveProxyIDForProvider (cfg : Option Config) (provider : String) : String :=
  match cfg with
  | none => ""
  | some c =>
    if provider = "codex" then c.proxyRouting.codex
    else if provider = "antigravity" then c.proxyRouting.antigravity
    else if provider = "claude" then c.proxyRouting.claude
    else if provider = "gemini" then c.proxyRouting.gemini
    else if provider = "gemini-cli" then c.proxyRouting.geminiCLI
    else if provider = "vertex" then c.proxyRouting.vertex
    else if provider = "aistudio" then c.proxyRouting.aiStudio
    else if provider = "qwen" then c.proxyRouting.qwen
    else if provider = "iflow" then c.proxyRouting.iflow
    else ""

/-- Translation of `resolveProxyIDForAuth`: the credential-level routing
entry, tried by ID, then derived index, then file name. `Auth.EnsureIndex`
is defined outside the provided sources and is passed in as
`ensureIndex`. -/
def resolveProxyIDForAuth (ensureIndex : Auth → String) (cfg : Option Config)
    (auth : Option Auth) : String :=
  match cfg, auth with
  | none, _ => ""
  | _, none => ""
  | some c, some a =>
    if c.proxyRoutingAuth.isEmpty then ""
    else
      let byId :=
        let i := trimSpace a.id
        if i ≠ "" then trimSpace ((goMapLookup c.proxyRoutingAuth i).getD "") else ""
      if byId ≠ "" then byId
      else
        let byIdx :=
          let idx := trimSpace (ensureIndex a)
          if idx ≠ "" then trimSpace ((goMapLookup c.proxyRoutingAuth idx).getD "") else ""
        if byIdx ≠ "" then byIdx
        else
          let byName :=
            let n := trimSpace a.fileName
            if n ≠ "" then trimSpace ((goMapLookup c.proxyRoutingAuth n).getD "") else ""
          if byName ≠ "" then byName else ""

/-- Translation of `resolveReverseProxyRouteWithID`. The ban map and the
clock are explicit; the possibly updated ban map (lazy eviction) is
returned alongside the resolution. -/
def resolveReverseProxyRouteWithID (cfg : Option Config) (proxyID provider originalURL : String)
    (bans : List (String × Int)) (now : Int) :
    ReverseProxyResolution × List (String × Int) :=
  let result : ReverseProxyResolution :=
    { url := originalURL, proxyID := trimSpace proxyID, proxied := false }
  if result.proxyID = "" then (result, bans)
  else
    let bannedState := isReverseProxyTemporarilyBanned bans result.proxyID now
    if bannedState.1 then (result, bannedState.2)
    else
      let u := resolveReverseProxyURLWithID cfg result.proxyID provider originalURL
      ({ result with url := u, proxied := u ≠ originalURL }, bannedState.2)

/-- Translation of `resolveReverseProxyRouteForAuth`: credential-level
routing first, falling back to provider-level routing. -/
def resolveReverseProxyRouteForAuth (ensureIndex : Auth → String) (cfg : Option Config)
    (auth : Option Auth) (provider originalURL : String)
    (bans : List (String × Int)) (now : Int) :
    ReverseProxyResolution × List (String × Int) :=
  let pid0 := resolveProxyIDForAuth ensureIndex cfg auth
  let pid := if pid0 = "" then resolveProxyIDForProvider cfg provider else pid0
  resolveReverseProxyRouteWithID cfg pid provider originalURL bans now

theorem string_append_assoc (a b c : String) : a ++ b ++ c = a ++ (b ++ c) := by
  cases a; cases b; cases c
  show String.mk _ = String.mk _
  simp

theorem string_append_empty (a : String) : a ++ "" = a := by
  cases a
  show String.mk _ = _
  simp

/-- C7: route resolution takes the proxy ID from the credential-level
mapping first and falls back to the provider-level mapping; and whenever
the resolved proxy ID is banned, `resolveReverseProxyRouteWithID` keeps
the original URL with `proxied = false` while still reporting the
resolved proxy ID. -/
theorem resolveReverseProxyRouteForAuth_precedence_and_ban (ensureIndex : Auth → String)
    (cfg : Option Config) (auth : Option Auth) (provider originalURL : String)
    (bans : List (String × Int)) (now : Int) :
    (resolveProxyIDForAuth ensureIndex cfg auth ≠ "" →
      resolveReverseProxyRouteForAuth ensureIndex cfg auth provider originalURL bans now
        = resolveReverseProxyRouteWithID cfg (resolveProxyIDForAuth ensureIndex cfg auth)
            provider originalURL bans now) ∧
    (resolveProxyIDForAuth ensureIndex cfg auth = "" →
      resolveReverseProxyRouteForAuth ensureIndex cfg auth provider originalURL bans now
        = resolveReverseProxyRouteWithID cfg (resolveProxyIDForProvider cfg provider)
            provider originalURL bans now) ∧
    (∀ pid, trimSpace pid ≠ "" →
      (isReverseProxyTemporarilyBanned bans (trimSpace pid) now).1 = true →
      (resolveReverseProxyRouteWithID cfg pid provider originalURL bans now).1
        = { url := originalURL, proxyID := trimSpace pid, proxied := false }) := by
  refine ⟨?_, ?_, ?_⟩
  · intro h
    simp [resolveReverseProxyRouteForAuth, h]
  · intro h
    simp [resolveReverseProxyRouteForAuth, h]
  · intro pid hid hban
    simp [resolveReverseProxyRouteWithID, hid, hban]

/-- Concrete instantiation of the C7 theorem, mirroring the repository
test: proxy `deno-1` is banned, so the route keeps the original URL,
reports `proxied = false`, and still carries the proxy ID. -/
theorem resolveReverseProxyRouteForAuth_precedence_and_ban_witness :
    trimSpace "deno-1" ≠ "" ∧
    (resolveReverseProxyRouteWithID
      (some { proxyRouting := { codex := "deno-1" },
              reverseProxies := [{ id := "deno-1", name := "deno-1",
                                   baseURL := "https://funny-starfish-28.lauracadano-max.deno.net",
                                   enabled := true }] })
      "deno-1" "codex" "https://chatgpt.com/backend-api/codex/responses"
      [("deno-1", 300000000000)] 1000000000).1
      = { url := "https://chatgpt.com/backend-api/codex/responses", proxyID := "deno-1",
          proxied := false } :=
  ⟨by decide,
    (resolveReverseProxyRouteForAuth_precedence_and_ban (fun _ => "")
      (some { proxyRouting := { codex := "deno-1" },
              reverseProxies := [{ id := "deno-1", name := "deno-1",
                                   baseURL := "https://funny-starfish-28.lauracadano-max.deno.net",
                                   enabled := true }] })
      none "codex" "https://chatgpt.com/backend-api/codex/responses"
      [("deno-1", 300000000000)] 1000000000).2.2 "deno-1" (by decide) (by decide)⟩

theorem goStartsWith_ne_empty {s p : String} (h : goStartsWith s p = true) (hp : p ≠ "") :
    s ≠ "" := by
  intro hs
  subst hs
  cases p with
  | mk data =>
    cases data with
    | nil => exact hp rfl
    | cons c cs => simp [goStartsWith, charsStartWith, String.toList] at h

/-- C8: worker-bridge URL rewriting. With a configured worker base whose
host differs from the proxy's base-URL host, and components already in
normal form (prefix `"/seg"`, path starting with `"/"`, no trailing
slashes), the bridge URL is exactly
`workerBase ++ prefix ++ path ++ "/" ++ proxyHost` with the query
appended verbatim; with equal hosts no bridge URL is produced. At the
resolver level, a non-empty bridge URL is the final call URL, and an
empty one falls back to plain proxy rewriting
`proxyBase ++ prefix ++ path (++ query)`. -/
theorem buildReverseProxyWorkerURL_bridge_spec (cfg : Config)
    (proxyBaseURL pfx path rawQuery workerBase : String) (wu pu : GoURL)
    (hwb : trimSpace cfg.reverseProxyWorkerURL = workerBase)
    (hwbne : workerBase ≠ "")
    (hwu : urlParse workerBase = some wu)
    (hpu : urlParse (trimSpace proxyBaseURL) = some pu)
    (hhost : trimSpace pu.hostname ≠ "")
    (hpfx : "/" ++ trimSlashes (trimSpace pfx) = pfx)
    (hpath : goStartsWith path "/" = true)
    (htrail : goEndsWith (pfx ++ path) "/" = false)
    (hwtrail : goEndsWith workerBase "/" = false) :
    (goEqualFold (trimSpace wu.hostname) (trimSpace pu.hostname) = false →
      buildReverseProxyWorkerURL (some cfg) proxyBaseURL pfx path rawQuery
        = workerBase ++ pfx ++ path ++ "/" ++ trimSpace pu.hostname
            ++ (if rawQuery = "" then "" else "?" ++ rawQuery)) ∧
    (goEqualFold (trimSpace wu.hostname) (trimSpace pu.hostname) = true →
      buildReverseProxyWorkerURL (some cfg) proxyBaseURL pfx path rawQuery = "") ∧
    (∀ pid pc ou provider originalURL,
      cfg.reverseProxies.isEmpty = false → pid ≠ "" →
      findReverseProxyByID (some cfg) pid = some pc →
      urlParse originalURL = some ou →
      (let pfxR := reverseProxyPathSegment provider ou.host
       let newPath := if goStartsWith ou.path "/" then ou.path else "/" ++ ou.path
       let w := buildReverseProxyWorkerURL (some cfg) pc.baseURL pfxR newPath ou.rawQuery
       (w ≠ "" → resolveReverseProxyURLWithID (some cfg) pid provider originalURL = w) ∧
       (w = "" → resolveReverseProxyURLWithID (some cfg) pid provider originalURL
          = goTrimSuffix pc.baseURL "/" ++ pfxR ++ newPath
              ++ (if ou.rawQuery = "" then "" else "?" ++ ou.rawQuery)))) := by
  have hpne : path ≠ "" := goStartsWith_ne_empty hpath (by decide)
  refine ⟨?_, ?_, ?_⟩
  · intro hdiff
    simp only [buildReverseProxyWorkerURL, hwb, if_neg hwbne, hwu, hpu, if_neg hhost, hdiff,
      Bool.false_eq_true, if_false, hpfx, if_neg hpne, hpath, if_true, htrail, goTrimSuffix,
      hwtrail]
    by_cases hq : rawQuery = ""
    · simp [hq, string_append_empty, string_append_assoc]
    · simp [hq, string_append_assoc]
  · intro heq
    simp [buildReverseProxyWorkerURL, hwb, hwbne, hwu, hpu, hhost, heq]
  · intro pid pc ou provider originalURL hne hpid hfind hou
    constructor
    · intro hw
      simp only [resolveReverseProxyURLWithID, hne, hpid, hfind, hou, Bool.false_eq_true,
        false_or, if_false, if_neg hw, if_pos hw, ite_not]
      simp [hw]
    · intro hw
      simp only [resolveReverseProxyURLWithID, hne, hpid, hfind, hou] at hw ⊢
      simp only [hw, ne_eq, not_true_eq_false, if_false, ite_false]
      by_cases hq : ou.rawQuery = ""
      · simp [hq, string_append_empty]
      · simp [hq, string_append_assoc]

/-- Concrete instantiation of the C8 theorem on the repository's own test
vectors: the worker bridge rewrites the codex call through the bridge
host, and a worker equal to the proxy host falls back to plain proxy
rewriting. -/
theorem buildReverseProxyWorkerURL_bridge_spec_witness :
    buildReverseProxyWorkerURL
      (some { reverseProxyWorkerURL := "https://cpa-deno-bridge.mengcenfay.workers.dev" })
      "https://funny-starfish-28.lauracadano-max.deno.net" "/codex"
      "/backend-api/codex/responses" "stream=true"
      = "https://cpa-deno-bridge.mengcenfay.workers.dev" ++ "/codex"
          ++ "/backend-api/codex/responses" ++ "/"
          ++ trimSpace (GoURL.hostname
               { scheme := "https", host := "funny-starfish-28.lauracadano-max.deno.net",
                 path := "", rawQuery := "" })
          ++ (if ("stream=true" : String) = "" then "" else "?" ++ "stream=true") :=
  (buildReverseProxyWorkerURL_bridge_spec
      { reverseProxyWorkerURL := "https://cpa-deno-bridge.mengcenfay.workers.dev" }
      "https://funny-starfish-28.lauracadano-max.deno.net" "/codex"
      "/backend-api/codex/responses" "stream=true"
      "https://cpa-deno-bridge.mengcenfay.workers.dev"
      { scheme := "https", host := "cpa-deno-bridge.mengcenfay.workers.dev",
        path := "", rawQuery := "" }
      { scheme := "https", host := "funny-starfish-28.lauracadano-max.deno.net",
        path := "", rawQuery := "" }
      (by decide) (by decide) (by decide) (by decide) (by decide) (by decide) (by decide)
      (by decide) (by decide)).1 (by decide)

/-! ## Circuit-breaker predicate and codex status errors

Translations of `shouldBanReverseProxyOnError`, `parseRetryAfterHeader`
and `newCodexStatusErr`, and a model of the error-handling phase of
`CodexExecutor.Execute` (codex_executor.go lines 159-209).

`http.ParseTime` (HTTP-date parsing) is a standard-library capability and
is passed in abstractly as `parseHTTPDate : String → Option Int`
returning the parsed instant in nanoseconds; the outcome of the
network-performed `fetchCodexQuotaCooldownHint` call is likewise passed
in as an `Option CodexQuotaCooldownHint`, which is `some` only with a
strictly positive `retryAfter` (the fetch rejects hints that are not
strictly in the future).
-/

/-- Translation of `shouldBanReverseProxyOnError`: gateway-style status
codes or known proxy-failure markers in the (lower-cased, trimmed) body. -/
def shouldBanReverseProxyOnError (statusCode : Nat) (errMsg : String) : Bool :=
  if statusCode = 404 || statusCode = 502 || statusCode = 503 || statusCode = 504 then true
  else if statusCode = 520 || statusCode = 521 || statusCode = 522 || statusCode = 523 ||
      statusCode = 524 then true
  else
    let msg := goToLower (trimSpace errMsg)
    if msg = "" then false
    else if goContains msg "请求详情" then true
    else if goContains msg "request detail" || goContains msg "status 404" ||
        goContains msg "\"status\":404" || goContains msg "/v1/v1/messages" then true
    else false

/-- Cooldown hint (`codexQuotaCooldownHint`): a retry-after duration in
nanoseconds and a reason tag. -/
structure CodexQuotaCooldownHint where
  retryAfter : Int
  reason : String
deriving Repr, DecidableEq

/-- The executor's status error (`statusErr`): HTTP status code, the raw
body as message, plus the optional retry-after duration (nanoseconds) and
quota reason attached for 429s. -/
structure StatusErr where
  code : Nat
  msg : String
  retryAfter : Option Int := none
  quotaReason : String := ""
deriving Repr, DecidableEq

/-- Translation of `parseRetryAfterHeader` over the raw `Retry-After`
header value: positive integral seconds, else an HTTP-date strictly in
the future (relative to `now`, via the abstract `parseHTTPDate`). -/
def parseRetryAfterHeader (now : Int) (parseHTTPDate : String → Option Int)
    (rawHeader : String) : Option Int :=
  let raw := trimSpace rawHeader
  if raw = "" then none
  else
    match goAtoi raw with
    | some seconds =>
      if seconds > 0 then some (seconds * 1000000000)
      else
        match parseHTTPDate raw with
        | none => none
        | some retryAt => if retryAt - now ≤ 0 then none else some (retryAt - now)
    | none =>
      match parseHTTPDate raw with
      | none => none
      | some retryAt => if retryAt - now ≤ 0 then none else some (retryAt - now)

/-- Translation of `newCodexStatusErr`: a plain status error for non-429
codes; for 429, the Retry-After header first, then the fetched usage
hint, whose strictly positive duration overrides the header timing and
whose reason is recorded. -/
def newCodexStatusErr (now : Int) (parseHTTPDate : String → Option Int)
    (hint : Option CodexQuotaCooldownHint) (statusCode : Nat) (body : String)
    (retryAfterHeader : String) : StatusErr :=
  let sErr : StatusErr := { code := statusCode, msg := body }
  if statusCode ≠ 429 then sErr
  else
    let sErr :=
      match parseRetryAfterHeader now parseHTTPDate retryAfterHeader with
      | some d => { sErr with retryAfter := some d }
      | none => sErr
    match hint with
    | none => sErr
    | some h =>
      let sErr := if h.retryAfter > 0 then { sErr with retryAfter := some h.retryAfter } else sErr
      { sErr with quotaReason := h.reason }

/-- One upstream HTTP response as seen by the error-handling phase:
status code, collected body, and the Retry-After header value. -/
structure HttpResult where
  statusCode : Nat
  body : String
  retryAfterHeader : String := ""
deriving Repr, DecidableEq

/-- Outcome of the error-handling phase of `CodexExecutor.Execute`:
`err = none` means the phase fell through to success processing of the
last response; `attempts` counts upstream POSTs (1 or 2); `usedDirect`
records whether the direct-upstream retry ran; `bans` is the updated ban
map. -/
structure CodexPhaseResult where
  err : Option StatusErr
  usedDirect : Bool
  attempts : Nat
  bans : List (String × Int)
deriving Repr, DecidableEq

/-- Model of the response-inspection phase of `CodexExecutor.Execute`
(lines 159-209): a 2xx first response succeeds; a failing proxied
response matching the ban predicate bans the proxy and retries exactly
once against the original upstream URL, surfacing the second failure
as-is; any other failure is surfaced directly. `first` is the response of
the initial (possibly proxied) call and `direct` the response the
direct-upstream retry would receive; `hint1`/`hint2` are the usage-lookup
outcomes for the respective error constructions. -/
def codexExecuteResponsePhase (now : Int) (parseHTTPDate : String → Option Int)
    (hint1 hint2 : Option CodexQuotaCooldownHint) (route : ReverseProxyResolution)
    (first direct : HttpResult) (bans : List (String × Int)) : CodexPhaseResult :=
  if first.statusCode < 200 || first.statusCode ≥ 300 then
    if route.proxied && shouldBanReverseProxyOnError first.statusCode first.body then
      let bans1 := banReverseProxyTemporarily bans route.proxyID now
      if direct.statusCode < 200 || direct.statusCode ≥ 300 then
        { err := some (newCodexStatusErr now parseHTTPDate hint2 direct.statusCode direct.body
            direct.retryAfterHeader),
          usedDirect := true, attempts := 2, bans := bans1 }
      else
        { err := none, usedDirect := true, attempts := 2, bans := bans1 }
    else
      { err := some (newCodexStatusErr now parseHTTPDate hint1 first.statusCode first.body
          first.retryAfterHeader),
        usedDirect := false, attempts := 1, bans := bans }
  else
    { err := none, usedDirect := false, attempts := 1, bans := bans }

theorem newCodexStatusErr_code_msg (now : Int) (parseHTTPDate : String → Option Int)
    (hint : Option CodexQuotaCooldownHint) (sc : Nat) (body hdr : String) :
    (newCodexStatusErr now parseHTTPDate hint sc body hdr).code = sc ∧
    (newCodexStatusErr now parseHTTPDate hint sc body hdr).msg = body := by
  unfold newCodexStatusErr
  by_cases h : sc = 429
  · cases parseRetryAfterHeader now parseHTTPDate hdr with
    | none =>
      cases hint with
      | none => simp [h]
      | some hv => by_cases hp : hv.retryAfter > 0 <;> simp [h, hp]
    | some d =>
      cases hint with
      | none => simp [h]
      | some hv => by_cases hp : hv.retryAfter > 0 <;> simp [h, hp]
  · simp [h]

theorem banReverseProxyTemporarily_lookup_ge (bans : List (String × Int)) (pid : String)
    (now : Int) (hid : trimSpace pid ≠ "") :
    ∃ u, goMapLookup (banReverseProxyTemporarily bans pid now) (trimSpace pid) = some u ∧
      now + reverseProxyBanTTL ≤ u := by
  simp only [banReverseProxyTemporarily, if_neg hid]
  cases h : goMapLookup bans (trimSpace pid) with
  | none => exact ⟨now + reverseProxyBanTTL, by simp [h, goMapLookup_goMapInsert_self], le_refl _⟩
  | some current =>
    by_cases hgt : current > now + reverseProxyBanTTL
    · exact ⟨current, by simp [h, hgt, goMapLookup_goMapInsert_self], le_of_lt hgt⟩
    · exact ⟨now + reverseProxyBanTTL, by simp [h, hgt, goMapLookup_goMapInsert_self], le_refl _⟩

/-- C2: on a failing upstream response, the executor retries directly
exactly when the call was proxied and the failure satisfies the ban
predicate; in that case it bans the proxy (the stored expiry covers the
5-minute TTL), performs exactly one direct retry, and a second failure is
surfaced with its status and body unmodified and no further attempt; a
failing call that was not proxied, or does not satisfy the predicate, is
surfaced as-is after a single attempt with the ban map untouched. -/
theorem codexExecuteResponsePhase_breaker (now : Int) (parseHTTPDate : String → Option Int)
    (hint1 hint2 : Option CodexQuotaCooldownHint) (route : ReverseProxyResolution)
    (first direct : HttpResult) (bans : List (String × Int))
    (hfail : first.statusCode < 200 ∨ 300 ≤ first.statusCode) :
    (route.proxied = true → shouldBanReverseProxyOnError first.statusCode first.body = true →
      (codexExecuteResponsePhase now parseHTTPDate hint1 hint2 route first direct bans).attempts
          = 2 ∧
      (codexExecuteResponsePhase now parseHTTPDate hint1 hint2 route first direct bans).usedDirect
          = true ∧
      (codexExecuteResponsePhase now parseHTTPDate hint1 hint2 route first direct bans).bans
          = banReverseProxyTemporarily bans route.proxyID now ∧
      (trimSpace route.proxyID ≠ "" →
        ∃ u, goMapLookup
            (codexExecuteResponsePhase now parseHTTPDate hint1 hint2 route first direct bans).bans
            (trimSpace route.proxyID) = some u ∧ now + reverseProxyBanTTL ≤ u) ∧
      (direct.statusCode < 200 ∨ 300 ≤ direct.statusCode →
        ∃ e, (codexExecuteResponsePhase now parseHTTPDate hint1 hint2 route first direct
            bans).err = some e ∧ e.code = direct.statusCode ∧ e.msg = direct.body) ∧
      (200 ≤ direct.statusCode ∧ direct.statusCode < 300 →
        (codexExecuteResponsePhase now parseHTTPDate hint1 hint2 route first direct bans).err
          = none)) ∧
    (route.proxied = false ∨ shouldBanReverseProxyOnError first.statusCode first.body = false →
      (codexExecuteResponsePhase now parseHTTPDate hint1 hint2 route first direct bans).attempts
          = 1 ∧
      (codexExecuteResponsePhase now parseHTTPDate hint1 hint2 route first direct bans).usedDirect
          = false ∧
      (codexExecuteResponsePhase now parseHTTPDate hint1 hint2 route first direct bans).bans
          = bans ∧
      ∃ e, (codexExecuteResponsePhase now parseHTTPDate hint1 hint2 route first direct bans).err
          = some e ∧ e.code = first.statusCode ∧ e.msg = first.body) := by
  have hfail' : (first.statusCode < 200 || first.statusCode ≥ 300) = true := by
    rcases hfail with h | h <;> simp [h]
  constructor
  · intro hproxied hban
    by_cases hdl : direct.statusCode < 200 ∨ 300 ≤ direct.statusCode
    · have hdl' : (direct.statusCode < 200 || direct.statusCode ≥ 300) = true := by
        rcases hdl with h | h <;> simp [h]
      have hphase : codexExecuteResponsePhase now parseHTTPDate hint1 hint2 route first direct
          bans
          = { err := some (newCodexStatusErr now parseHTTPDate hint2 direct.statusCode
                direct.body direct.retryAfterHeader),
              usedDirect := true, attempts := 2,
              bans := banReverseProxyTemporarily bans route.proxyID now } := by
        simp [codexExecuteResponsePhase, hfail', hproxied, hban, hdl']
      rw [hphase]
      refine ⟨rfl, rfl, rfl, ?_, ?_, ?_⟩
      · intro hid
        exact banReverseProxyTemporarily_lookup_ge bans route.proxyID now hid
      · intro _
        exact ⟨_, rfl,
          (newCodexStatusErr_code_msg now parseHTTPDate hint2 direct.statusCode direct.body
            direct.retryAfterHeader).1,
          (newCodexStatusErr_code_msg now parseHTTPDate hint2 direct.statusCode direct.body
            direct.retryAfterHeader).2⟩
      · intro hok
        exfalso
        omega
    · have hdl' : (direct.statusCode < 200 || direct.statusCode ≥ 300) = false := by
        push_neg at hdl
        simp only [Bool.or_eq_false_iff, decide_eq_false_iff_not, not_lt, ge_iff_le, not_le]
        omega
      have hphase : codexExecuteResponsePhase now parseHTTPDate hint1 hint2 route first direct
          bans
          = { err := none, usedDirect := true, attempts := 2,
              bans := banReverseProxyTemporarily bans route.proxyID now } := by
        simp [codexExecuteResponsePhase, hfail', hproxied, hban, hdl']
      rw [hphase]
      refine ⟨rfl, rfl, rfl, ?_, ?_, fun _ => rfl⟩
      · intro hid
        exact banReverseProxyTemporarily_lookup_ge bans route.proxyID now hid
      · intro hbad
        exfalso
        push_neg at hdl
        omega
  · intro hnb
    have hcond : (route.proxied && shouldBanReverseProxyOnError first.statusCode first.body)
        = false := by
      rcases hnb with h | h <;> simp [h]
    have hphase : codexExecuteResponsePhase now parseHTTPDate hint1 hint2 route first direct
        bans
        = { err := some (newCodexStatusErr now parseHTTPDate hint1 first.statusCode first.body
              first.retryAfterHeader),
            usedDirect := false, attempts := 1, bans := bans } := by
      simp [codexExecuteResponsePhase, hfail', hcond]
    rw [hphase]
    exact ⟨rfl, rfl, rfl, _, rfl,
      (newCodexStatusErr_code_msg now parseHTTPDate hint1 first.statusCode first.body
        first.retryAfterHeader).1,
      (newCodexStatusErr_code_msg now parseHTTPDate hint1 first.statusCode first.body
        first.retryAfterHeader).2⟩

/-- Concrete instantiation of the C2 theorem: a proxied 502 bans the
proxy and retries once directly; the direct 500 with body `boom` is
surfaced unmodified after exactly two attempts. -/
theorem codexExecuteResponsePhase_breaker_witness :
    ((502 : Nat) < 200 ∨ (300 : Nat) ≤ 502) ∧
    ∃ e, (codexExecuteResponsePhase 0 (fun _ => none) none none
        { url := "https://proxy/codex/responses", proxyID := "deno-1", proxied := true }
        { statusCode := 502, body := "bad gateway" } { statusCode := 500, body := "boom" }
        []).err = some e ∧ e.code = 500 ∧ e.msg = "boom" :=
  ⟨Or.inr (by decide),
    ((codexExecuteResponsePhase_breaker 0 (fun _ => none) none none
        { url := "https://proxy/codex/responses", proxyID := "deno-1", proxied := true }
        { statusCode := 502, body := "bad gateway" } { statusCode := 500, body := "boom" }
        [] (Or.inr (by decide))).1 rfl (by decide)).2.2.2.2.1 (Or.inr (by decide))⟩

theorem goAtoi_empty : goAtoi "" = none := by decide

/-- C4: building a 429 quota error. A Retry-After header parsing as
positive integral seconds, or as an HTTP-date strictly in the future,
sets the retry-after duration; a fetched cooldown hint overrides that
timing exactly when it carries a strictly positive duration (which every
fetched hint does — the more specific hint), and the hint's detector
reason is recorded on the error either way, the header path never
carrying a reason of its own. Non-429 codes get a plain status error. -/
theorem newCodexStatusErr_quota_spec (now : Int) (parseHTTPDate : String → Option Int) :
    (∀ raw n, goAtoi (trimSpace raw) = some n → 0 < n →
      parseRetryAfterHeader now parseHTTPDate raw = some (n * 1000000000)) ∧
    (∀ raw t, trimSpace raw ≠ "" →
      (goAtoi (trimSpace raw) = none ∨ ∃ n, goAtoi (trimSpace raw) = some n ∧ n ≤ 0) →
      parseHTTPDate (trimSpace raw) = some t → 0 < t - now →
      parseRetryAfterHeader now parseHTTPDate raw = some (t - now)) ∧
    (∀ sc body raw hint, sc ≠ 429 →
      newCodexStatusErr now parseHTTPDate hint sc body raw = { code := sc, msg := body }) ∧
    (∀ body raw,
      newCodexStatusErr now parseHTTPDate none 429 body raw
        = { code := 429, msg := body,
            retryAfter := parseRetryAfterHeader now parseHTTPDate raw }) ∧
    (∀ body raw (h : CodexQuotaCooldownHint),
      (0 < h.retryAfter →
        newCodexStatusErr now parseHTTPDate (some h) 429 body raw
          = { code := 429, msg := body, retryAfter := some h.retryAfter,
              quotaReason := h.reason }) ∧
      (h.retryAfter ≤ 0 →
        newCodexStatusErr now parseHTTPDate (some h) 429 body raw
          = { code := 429, msg := body,
              retryAfter := parseRetryAfterHeader now parseHTTPDate raw,
              quotaReason := h.reason })) := by
  refine ⟨?_, ?_, ?_, ?_, ?_⟩
  · intro raw n hatoi hn
    have hraw : trimSpace raw ≠ "" := by
      intro h
      rw [h, goAtoi_empty] at hatoi
      exact Option.noConfusion hatoi
    simp [parseRetryAfterHeader, hraw, hatoi, hn]
  · intro raw t hraw hatoi hdate hpos
    rcases hatoi with h | ⟨n, hn, hle⟩
    · simp [parseRetryAfterHeader, hraw, h, hdate, not_le.mpr hpos, Int.sub_pos.mp hpos]
    · simp [parseRetryAfterHeader, hraw, hn, not_lt.mpr hle, hdate]
      omega
  · intro sc body raw hint hsc
    simp [newCodexStatusErr, hsc]
  · intro body raw
    cases hp : parseRetryAfterHeader now parseHTTPDate raw with
    | none => simp [newCodexStatusErr, hp]
    | some d => simp [newCodexStatusErr, hp]
  · intro body raw h
    constructor
    · intro hpos
      cases hp : parseRetryAfterHeader now parseHTTPDate raw with
      | none => simp [newCodexStatusErr, hp, hpos]
      | some d => simp [newCodexStatusErr, hp, hpos]
    · intro hle
      cases hp : parseRetryAfterHeader now parseHTTPDate raw with
      | none => simp [newCodexStatusErr, hp, not_lt.mpr hle]
      | some d => simp [newCodexStatusErr, hp, not_lt.mpr hle]

/-- Concrete instantiation of the C4 theorem, mirroring the repository
test: a `Retry-After: 120` header yields a 120-second retry-after
duration. -/
theorem newCodexStatusErr_quota_spec_witness :
    goAtoi (trimSpace "120") = some 120 ∧
    parseRetryAfterHeader 0 (fun _ => none) "120" = some (120 * 1000000000) :=
  ⟨by decide,
    (newCodexStatusErr_quota_spec 0 (fun _ => none)).1 "120" 120 (by decide) (by decide)⟩

/-! ## Quota payload model and the cooldown detector

The codex quota payload is JSON inspected through gjson. JSON values are
embedded as an inductive type (numbers as exact rationals standing for
the float64 values the payload carries), and a gjson result — a value
that may be missing — as `Option JValue`. The gjson accessor coercions
(`Bool()`, the string branch of float parsing) are modelled after the
library's documented behaviour on the value forms the detector reads.
-/

/-- A JSON value; numbers are rationals (the payloads carry float64s). -/
inductive JValue where
  | null
  | bool (b : Bool)
  | num (q : Rat)
  | str (s : String)
  | arr (items : List JValue)
  | obj (fields : List (String × JValue))

/-- gjson `Result.Get` on a possibly missing value: object field lookup. -/
def jGet (r : Option JValue) (key : String) : Option JValue :=
  match r with
  | some (.obj fields) => goMapLookup fields key
  | _ => none

/-- gjson `Result.Exists`. -/
def jExists (r : Option JValue) : Bool := r.isSome

/-- Whether a gjson result is JSON `null` (`Type == gjson.Null`). -/
def jIsNull (r : Option JValue) : Bool :=
  match r with
  | some .null => true
  | _ => false

/-- Model of Go `strconv.ParseBool` after lower-casing, as used by gjson:
the lower-case truthy spellings. -/
def goParseBool (s : String) : Bool := s = "1" || s = "t" || s = "true"

/-- gjson `Result.Bool`: true for JSON `true`, a truthy string, or a
non-zero number. -/
def jBool (r : Option JValue) : Bool :=
  match r with
  | some (.bool b) => b
  | some (.str s) => goParseBool (goToLower s)
  | some (.num q) => decide (q ≠ 0)
  | _ => false

/-- Unsigned decimal parsing to an exact rational (exponent forms are not
modelled; the detector's payloads use plain decimals). -/
def parseUnsignedRat (cs : List Char) : Option Rat :=
  match charsSplitOnSub ['.'] cs with
  | none => (digitsToNat cs).map (fun n => (n : Rat))
  | some (ip, fp) =>
    match digitsToNat ip, digitsToNat fp with
    | some i, some f => some ((i : Rat) + (f : Rat) / ((10 : Rat) ^ fp.length))
    | _, _ => none

/-- Model of Go `strconv.ParseFloat` on plain decimal strings. -/
def goParseFloat (s : String) : Option Rat :=
  match s.toList with
  | '-' :: cs => (parseUnsignedRat cs).map Neg.neg
  | '+' :: cs => parseUnsignedRat cs
  | cs => parseUnsignedRat cs

/-- Translation of `gjsonToFloat`: numbers directly, strings through
trimming and float parsing; other types stringify to text that never
parses as a float. -/
def gjsonToFloat (r : Option JValue) : Option Rat :=
  match r with
  | none => none
  | some (.num q) => some q
  | some (.str s) =>
    let trimmed := trimSpace s
    if trimmed = "" then none else goParseFloat trimmed
  | some _ => none

/-- Truncation of a rational toward zero, the effect of Go's
float64-to-int64 conversion. -/
def ratTrunc (q : Rat) : Int := q.num.tdiv (q.den : Int)

/-- Translation of `codexWindowRecoverAt` over nanosecond timestamps:
prefer a positive absolute `reset_at` epoch (seconds), else
`now + reset_after_seconds`. -/
def codexWindowRecoverAt (window : Option JValue) (now : Int) : Option Int :=
  let tryResetAt := fun (key : String) =>
    match gjsonToFloat (jGet window key) with
    | some v => if v > 0 then some (ratTrunc v * 1000000000) else none
    | none => none
  let tryResetAfter := fun (key : String) =>
    match gjsonToFloat (jGet window key) with
    | some v => if v > 0 then some (now + ratTrunc (v * 1000000000)) else none
    | none => none
  ((((tryResetAt "reset_at").orElse (fun _ => tryResetAt "resetAt")).orElse
    (fun _ => tryResetAfter "reset_after_seconds")).orElse
    (fun _ => tryResetAfter "resetAfterSeconds"))

/-- One limiting-window candidate of `codexQuotaRecoverAt`. -/
structure CodexWindowCandidate where
  resetAt : Int
  reason : String
deriving Repr, DecidableEq

/-- Translation of `appendCodexWindowCandidate` (returning the candidate
instead of pushing onto a slice): a present non-null window that is
limiting — by its parent's flag or its own used percentage ≥ 100 — and
whose recovery time is strictly after `now`. -/
def appendCodexWindowCandidate (window : Option JValue) (parentLimited : Bool)
    (reason : String) (now : Int) : Option CodexWindowCandidate :=
  if !(jExists window) || jIsNull window then none
  else
    let windowLimited := parentLimited ||
      (match gjsonToFloat (jGet window "used_percent") with
       | some up => decide (up ≥ 100)
       | none => false) ||
      (match gjsonToFloat (jGet window "usedPercent") with
       | some up => decide (up ≥ 100)
       | none => false)
    if !windowLimited then none
    else
      match codexWindowRecoverAt window now with
      | none => none
      | some resetAt => if resetAt > now then some ⟨resetAt, reason⟩ else none

/-- Translation of `resolveCodexWindowReason`: the secondary (long-form)
reason when the window's declared duration is at least 24 hours. -/
def resolveCodexWindowReason (window : Option JValue)
    (reasonPrimary reasonSecondary : String) : String :=
  if reasonPrimary = reasonSecondary then reasonPrimary
  else if !(jExists window) || jIsNull window then reasonPrimary
  else
    let check := fun (key : String) =>
      match gjsonToFloat (jGet window key) with
      | some v => decide (v ≥ 24 * 60 * 60)
      | none => false
    if check "limit_window_seconds" then reasonSecondary
    else if check "limitWindowSeconds" then reasonSecondary
    else if check "reset_after_seconds" then reasonSecondary
    else if check "resetAfterSeconds" then reasonSecondary
    else reasonPrimary

/-- Translation of the `addByRateLimit` closure of `codexQuotaRecoverAt`:
the candidates of one rate-limit section, primary windows tagged through
`resolveCodexWindowReason` and secondary windows with the long-form
reason. -/
def codexRateLimitCandidates (rateLimit : Option JValue)
    (reasonPrimary reasonSecondary : String) (now : Int) : List CodexWindowCandidate :=
  if !(jExists rateLimit) || jIsNull rateLimit then []
  else
    let parentLimited :=
      jBool (jGet rateLimit "limit_reached") || jBool (jGet rateLimit "limitReached")
    let parentLimited :=
      if jExists (jGet rateLimit "allowed") && !(jBool (jGet rateLimit "allowed")) then true
      else parentLimited
    ([appendCodexWindowCandidate (jGet rateLimit "primary_window") parentLimited
        (resolveCodexWindowReason (jGet rateLimit "primary_window") reasonPrimary
          reasonSecondary) now,
      appendCodexWindowCandidate (jGet rateLimit "primaryWindow") parentLimited
        (resolveCodexWindowReason (jGet rateLimit "primaryWindow") reasonPrimary
          reasonSecondary) now,
      appendCodexWindowCandidate (jGet rateLimit "secondary_window") parentLimited
        reasonSecondary now,
      appendCodexWindowCandidate (jGet rateLimit "secondaryWindow") parentLimited
        reasonSecondary now]).filterMap id

/-- All limiting candidates of a payload, across the general and
code-review sections, in the order the source scans them. -/
def codexQuotaCandidates (root : JValue) (now : Int) : List CodexWindowCandidate :=
  codexRateLimitCandidates (jGet (some root) "rate_limit")
    "codex_5h_limit" "codex_weekly_limit" now
  ++ codexRateLimitCandidates (jGet (some root) "rateLimit")
    "codex_5h_limit" "codex_weekly_limit" now
  ++ codexRateLimitCandidates (jGet (some root) "code_review_rate_limit")
    "codex_code_review_limit" "codex_code_review_limit" now
  ++ codexRateLimitCandidates (jGet (some root) "codeReviewRateLimit")
    "codex_code_review_limit" "codex_code_review_limit" now

/-- Translation of `codexQuotaRecoverAt`: the earliest candidate (first
wins ties), or `none` when no window is limiting. -/
def codexQuotaRecoverAt (root : JValue) (now : Int) : Option (Int × String) :=
  match codexQuotaCandidates root now with
  | [] => none
  | c :: cs =>
    let earliest := cs.foldl (fun e c2 => if c2.resetAt < e.resetAt then c2 else e) c
    some (earliest.resetAt, earliest.reason)

theorem foldlEarliest_mem_le (cs : List CodexWindowCandidate) :
    ∀ c : CodexWindowCandidate,
      (cs.foldl (fun e c2 => if c2.resetAt < e.resetAt then c2 else e) c) ∈ c :: cs ∧
      ∀ x ∈ c :: cs,
        (cs.foldl (fun e c2 => if c2.resetAt < e.resetAt then c2 else e) c).resetAt
          ≤ x.resetAt := by
  induction cs with
  | nil => intro c; simp
  | cons d ds ih =>
    intro c
    obtain ⟨hm, hle⟩ := ih (if d.resetAt < c.resetAt then d else c)
    have key : List.foldl (fun e c2 => if c2.resetAt < e.resetAt then c2 else e) c (d :: ds)
        = List.foldl (fun e c2 => if c2.resetAt < e.resetAt then c2 else e)
            (if d.resetAt < c.resetAt then d else c) ds := rfl
    rw [key]
    have hcc : (if d.resetAt < c.resetAt then d else c) ∈ c :: d :: ds := by
      by_cases hd : d.resetAt < c.resetAt <;> simp [hd]
    have hccle : (if d.resetAt < c.resetAt then d else c).resetAt ≤ c.resetAt ∧
        (if d.resetAt < c.resetAt then d else c).resetAt ≤ d.resetAt := by
      by_cases hd : d.resetAt < c.resetAt <;> simp [hd] <;> omega
    constructor
    · rcases List.mem_cons.mp hm with h | h
      · rw [h]; exact hcc
      · exact List.mem_cons_of_mem _ (List.mem_cons_of_mem _ h)
    · intro x hx
      have hbase := hle _ (List.mem_cons_self _ _)
      rcases List.mem_cons.mp hx with h | h
      · rw [h]; exact le_trans hbase hccle.1
      · rcases List.mem_cons.mp h with h2 | h2
        · rw [h2]; exact le_trans hbase hccle.2
        · exact hle x (List.mem_cons_of_mem _ h2)

theorem ratTrunc_intCast (n : Int) : ratTrunc ((n : Int) : Rat) = n := by
  simp [ratTrunc, Int.tdiv_one]

/-- The quota payload of the repository test
`TestCodexQuotaRecoverAt_PrefersNearestWindow`: `limit_reached` with a
primary window resetting in 18,000 seconds and a secondary window
resetting in 86,400 seconds. -/
def codexQuotaPayloadShort : JValue :=
  .obj [("rate_limit", .obj [("limit_reached", .bool true),
                             ("primary_window", .obj [("reset_after_seconds", .num 18000)]),
                             ("secondary_window", .obj [("reset_after_seconds", .num 86400)])])]

/-- The quota payload of the repository test
`TestCodexQuotaRecoverAt_WeeklyLimit`: only a secondary window with
`reset_after_seconds = 604800`. -/
def codexQuotaPayloadWeekly : JValue :=
  .obj [("rate_limit", .obj [("limit_reached", .bool true),
                             ("secondary_window", .obj [("reset_after_seconds", .num 604800)])])]

theorem codexQuotaCandidates_payloadShort (now : Int) :
    codexQuotaCandidates codexQuotaPayloadShort now
      = [⟨now + 18000000000000, "codex_5h_limit"⟩,
         ⟨now + 86400000000000, "codex_weekly_limit"⟩] := by
  have e1 : ((18000 : Rat) * 1000000000) = ((18000000000000 : Int) : Rat) := by norm_num
  have e2 : ((86400 : Rat) * 1000000000) = ((86400000000000 : Int) : Rat) := by norm_num
  have h1 : ratTrunc ((18000 : Rat) * 1000000000) = 18000000000000 := by
    rw [e1, ratTrunc_intCast]
  have h2 : ratTrunc ((86400 : Rat) * 1000000000) = 86400000000000 := by
    rw [e2, ratTrunc_intCast]
  simp [codexQuotaCandidates, codexRateLimitCandidates, appendCodexWindowCandidate,
    codexWindowRecoverAt, resolveCodexWindowReason, gjsonToFloat, jGet, goMapLookup,
    jBool, jExists, jIsNull, codexQuotaPayloadShort, h1, h2, Option.orElse]
  norm_num

theorem codexQuotaCandidates_payloadWeekly (now : Int) :
    codexQuotaCandidates codexQuotaPayloadWeekly now
      = [⟨now + 604800000000000, "codex_weekly_limit"⟩] := by
  have e1 : ((604800 : Rat) * 1000000000) = ((604800000000000 : Int) : Rat) := by norm_num
  have h1 : ratTrunc ((604800 : Rat) * 1000000000) = 604800000000000 := by
    rw [e1, ratTrunc_intCast]
  simp [codexQuotaCandidates, codexRateLimitCandidates, appendCodexWindowCandidate,
    codexWindowRecoverAt, resolveCodexWindowReason, gjsonToFloat, jGet, goMapLookup,
    jBool, jExists, jIsNull, codexQuotaPayloadWeekly, h1, Option.orElse]

/-- C3: `codexQuotaRecoverAt` returns the earliest recovery time among
all limiting candidates across all sections, paired with that candidate's
reason tag (and `none` exactly when no window is limiting with a recovery
strictly after `now`). On the repository's own payloads: a rate-limit
section with `limit_reached` and windows resetting in 18,000 s and
86,400 s recovers at `now + 5h` tagged `codex_5h_limit`; a sole secondary
window with `reset_after_seconds = 604800` recovers at `now + 7d` tagged
`codex_weekly_limit`. -/
theorem codexQuotaRecoverAt_earliest (root : JValue) (now : Int) :
    (codexQuotaCandidates root now = [] → codexQuotaRecoverAt root now = none) ∧
    (codexQuotaCandidates root now ≠ [] →
      ∃ c : CodexWindowCandidate,
        codexQuotaRecoverAt root now = some (c.resetAt, c.reason) ∧
        c ∈ codexQuotaCandidates root now ∧
        ∀ x ∈ codexQuotaCandidates root now, c.resetAt ≤ x.resetAt) ∧
    codexQuotaRecoverAt codexQuotaPayloadShort now
      = some (now + 18000000000000, "codex_5h_limit") ∧
    codexQuotaRecoverAt codexQuotaPayloadWeekly now
      = some (now + 604800000000000, "codex_weekly_limit") := by
  refine ⟨?_, ?_, ?_, ?_⟩
  · intro h
    simp [codexQuotaRecoverAt, h]
  · intro h
    cases hc : codexQuotaCandidates root now with
    | nil => exact absurd hc h
    | cons c cs =>
      obtain ⟨hm, hle⟩ := foldlEarliest_mem_le cs c
      refine ⟨cs.foldl (fun e c2 => if c2.resetAt < e.resetAt then c2 else e) c, ?_, ?_, ?_⟩
      · simp [codexQuotaRecoverAt, hc]
      · exact hm
      · exact hle
  · rw [codexQuotaRecoverAt, codexQuotaCandidates_payloadShort now]
    have : ¬ (now + 86400000000000 < now + 18000000000000) := by omega
    simp [this]
  · rw [codexQuotaRecoverAt, codexQuotaCandidates_payloadWeekly now]
    simp

/-- Concrete instantiation of the C3 theorem at `now = 0` on the
short-window payload: the earliest limiting candidate is returned. -/
theorem codexQuotaRecoverAt_earliest_witness :
    codexQuotaCandidates codexQuotaPayloadShort 0 ≠ [] ∧
    ∃ c : CodexWindowCandidate,
      codexQuotaRecoverAt codexQuotaPayloadShort 0 = some (c.resetAt, c.reason) ∧
      c ∈ codexQuotaCandidates codexQuotaPayloadShort 0 ∧
      ∀ x ∈ codexQuotaCandidates codexQuotaPayloadShort 0, c.resetAt ≤ x.resetAt :=
  ⟨by simp [codexQuotaCandidates_payloadShort 0],
    (codexQuotaRecoverAt_earliest codexQuotaPayloadShort 0).2.1
      (by simp [codexQuotaCandidates_payloadShort 0])⟩

/-! ## Config-access provider (`internal/access/config_access/provider.go`)

Times are `Int` values in an absolute scale whose zero is the Go zero
`time.Time` (midnight UTC, January 1, year 1); `exp.IsZero()` is
`exp = 0`. RFC3339 parsing is a standard-library capability and is passed
in abstractly as `parseRFC3339 : String → Option Int` (returning `none`
on a parse error); Go's parser maps the RFC3339 zero date
`0001-01-01T00:00:00Z` to the zero time, i.e. to `0` in this scale.
-/

/-- Authentication outcomes of the provider (`sdkaccess` errors). -/
inductive AccessError where
  | notHandled
  | noCredentials
  | invalidCredential
  | expiredCredential
deriving Repr, DecidableEq

/-- Successful authentication result (`sdkaccess.Result`). -/
structure AccessResult where
  provider : String
  principal : String
  source : String
deriving Repr, DecidableEq

/-- The provider state (`configaccess.provider`): name, configured key
set, optional per-key expiry map, and the clock value. -/
structure ConfigAccessProvider where
  name : String
  keys : List String
  expiresAt : Option (List (String × Int))
  now : Int
deriving Repr, DecidableEq

/-- The request fields `Authenticate` reads: two headers, one Google and
one Anthropic key header, and two query parameters. -/
structure AccessRequest where
  authorization : String := ""
  xGoogApiKey : String := ""
  xApiKey : String := ""
  queryKey : String := ""
  queryAuthToken : String := ""
deriving Repr, DecidableEq

/-- Translation of `parseExpiryMap` (the `map[string]string` and
`map[string]any` branches coincide once values are strings): trim keys
and values, drop blanks and values the RFC3339 parser rejects; an empty
result map becomes `nil`. -/
def parseExpiryMap (parseRFC3339 : String → Option Int)
    (raw : Option (List (String × String))) : Option (List (String × Int)) :=
  match raw with
  | none => none
  | some entries =>
    let out := entries.filterMap (fun kv =>
      let k := trimSpace kv.1
      let v := trimSpace kv.2
      if k = "" || v = "" then none
      else
        match parseRFC3339 v with
        | some ts => some (k, ts)
        | none => none)
    if out.isEmpty then none else some out

/-- Translation of `extractBearerToken`: strip a `Bearer ` scheme, else
return the header unchanged. -/
def extractBearerToken (header : String) : String :=
  if header = "" then ""
  else
    match charsSplitOnSub [' '] header.toList with
    | none => header
    | some (p0, p1) =>
      if goToLower (String.mk p0) ≠ "bearer" then header
      else trimSpace (String.mk p1)

/-- `provider.Identifier`. The default provider name is defined outside
the provided sources; its value does not affect the claims. -/
def providerIdentifier (p : ConfigAccessProvider) : String :=
  if p.name = "" then "config-api-key" else p.name

/-- The candidate loop of `Authenticate`: try each non-empty candidate in
order; a configured key is accepted unless its expiry entry is non-zero
and not after `now`. -/
def authenticateLoop (p : ConfigAccessProvider) :
    List (String × String) → Except AccessError AccessResult
  | [] => .error .invalidCredential
  | (value, source) :: rest =>
    if value = "" then authenticateLoop p rest
    else if p.keys.contains value then
      match p.expiresAt with
      | some m =>
        (match goMapLookup m value with
         | some exp =>
           if exp ≠ 0 && !(exp > p.now) then .error .expiredCredential
           else .ok { provider := providerIdentifier p, principal := value, source := source }
         | none =>
           .ok { provider := providerIdentifier p, principal := value, source := source })
      | none => .ok { provider := providerIdentifier p, principal := value, source := source }
    else authenticateLoop p rest

/-- Translation of `provider.Authenticate`. -/
def authenticate (p : ConfigAccessProvider) (r : AccessRequest) :
    Except AccessError AccessResult :=
  if p.keys.isEmpty then .error .notHandled
  else if r.authorization = "" && r.xGoogApiKey = "" && r.xApiKey = "" && r.queryKey = ""
      && r.queryAuthToken = "" then .error .noCredentials
  else
    let apiKey := extractBearerToken r.authorization
    authenticateLoop p
      [(apiKey, "authorization"), (r.xGoogApiKey, "x-goog-api-key"),
       (r.xApiKey, "x-api-key"), (r.queryKey, "query-key"),
       (r.queryAuthToken, "query-auth-token")]

/-- Partial model of Go `time.Parse(time.RFC3339, ...)`, restricted to
the single input this file needs: the RFC3339 zero date parses to the Go
zero time (`0` in the time scale used here); every other string is
rejected. -/
def parseRFC3339ZeroOnly (s : String) : Option Int :=
  if s = "0001-01-01T00:00:00Z" then some 0 else none

/-- C10 counterexample: the expiry value `0001-01-01T00:00:00Z` is a
valid RFC3339 timestamp that is not after `now = 100`, so the claim
predicts an expired-credential rejection; but it parses to the Go zero
time, `Authenticate` guards the rejection with `!exp.IsZero()`, and the
request authenticates successfully. -/
theorem authenticate_zero_expiry_counterexample :
    authenticate
      { name := "cfg", keys := ["k1"],
        expiresAt := parseExpiryMap parseRFC3339ZeroOnly
          (some [("k1", "0001-01-01T00:00:00Z")]),
        now := 100 }
      { xApiKey := "k1" }
      = .ok { provider := "cfg", principal := "k1", source := "x-api-key" } := by
  rfl

/-- C10 (amended): for a request presenting a configured client key, an
expiry entry that denotes a non-zero instant not after the current time
makes `Authenticate` reject with an expired-credential error instead of
succeeding; a key with no expiry entry (or no expiry map at all)
authenticates as if no expiry were set, and an entry whose value the
RFC3339 parser rejects is dropped when the expiry map is parsed. The Go
zero instant is exempt from the expiry check. -/
theorem authenticate_expiry_spec (p : ConfigAccessProvider)
    (parseRFC3339 : String → Option Int) (r : AccessRequest) :
    (∀ value source rest m exp, p.expiresAt = some m → value ≠ "" →
      p.keys.contains value = true → goMapLookup m value = some exp → exp ≠ 0 →
      exp ≤ p.now →
      authenticateLoop p ((value, source) :: rest) = .error .expiredCredential) ∧
    (∀ value source rest m, p.expiresAt = some m → value ≠ "" →
      p.keys.contains value = true → goMapLookup m value = none →
      authenticateLoop p ((value, source) :: rest)
        = .ok { provider := providerIdentifier p, principal := value, source := source }) ∧
    (∀ value source rest, p.expiresAt = none → value ≠ "" →
      p.keys.contains value = true →
      authenticateLoop p ((value, source) :: rest)
        = .ok { provider := providerIdentifier p, principal := value, source := source }) ∧
    (∀ k v, parseRFC3339 (trimSpace v) = none →
      parseExpiryMap parseRFC3339 (some [(k, v)]) = none) ∧
    (p.keys.isEmpty = false →
      ¬(r.authorization = "" ∧ r.xGoogApiKey = "" ∧ r.xApiKey = "" ∧ r.queryKey = ""
        ∧ r.queryAuthToken = "") →
      authenticate p r
        = authenticateLoop p
            [(extractBearerToken r.authorization, "authorization"),
             (r.xGoogApiKey, "x-goog-api-key"), (r.xApiKey, "x-api-key"),
             (r.queryKey, "query-key"), (r.queryAuthToken, "query-auth-token")]) := by
  refine ⟨?_, ?_, ?_, ?_, ?_⟩
  · intro value source rest m exp hm hv hc hlk hnz hle
    have hc2 : value ∈ p.keys := List.elem_iff.mp hc
    simp [authenticateLoop, hv, hc2, hm, hlk, hnz, not_lt.mpr hle]
  · intro value source rest m hm hv hc hlk
    have hc2 : value ∈ p.keys := List.elem_iff.mp hc
    simp [authenticateLoop, hv, hc2, hm, hlk]
  · intro value source rest hm hv hc
    have hc2 : value ∈ p.keys := List.elem_iff.mp hc
    simp [authenticateLoop, hv, hc2, hm]
  · intro k v hparse
    by_cases hk : trimSpace k = ""
    · simp [parseExpiryMap, hk]
    · by_cases hv : trimSpace v = ""
      · simp [parseExpiryMap, hk, hv]
      · simp [parseExpiryMap, hk, hv, hparse]
  · intro hkeys hsome
    have h5 : (r.authorization = "" && r.xGoogApiKey = "" && r.xApiKey = "" && r.queryKey = ""
        && r.queryAuthToken = "") = false := by
      by_contra hcontra
      apply hsome
      simp only [Bool.not_eq_false, Bool.and_eq_true, decide_eq_true_eq] at hcontra
      tauto
    simp [authenticate, hkeys, h5]

/-- Concrete instantiation of the C10 theorem: a key whose expiry
(representing a non-zero instant, 50) is not after `now = 100` is
rejected as expired. -/
theorem authenticate_expiry_spec_witness :
    authenticateLoop
      { name := "cfg", keys := ["k1"], expiresAt := some [("k1", 50)], now := 100 }
      [("k1", "x-api-key")] = .error .expiredCredential :=
  (authenticate_expiry_spec
      { name := "cfg", keys := ["k1"], expiresAt := some [("k1", 50)], now := 100 }
      (fun _ => none) {}).1
    "k1" "x-api-key" [] [("k1", 50)] 50 rfl (by decide) (by decide) (by decide)
    (by decide) (by decide)

end ProxyMe
